import Mathlib

/-!
Shallow embedding of `src/edge_registry/core.py` (class `ModelRegistry`) from
the Edge-Model-Registry repository, together with theorems settling the
spec claims about it.

Modelling conventions:
* Filesystem paths and file names are `String`s; the filesystem is an
  association list from path to file data plus a list of known directories.
* `json.dump`/`json.load` are modelled by the `FileData` type: `FileData.doc d`
  is a file whose content parses as a registry document `d`, `FileData.bytes s`
  is opaque content that does not parse as a registry document (used both for
  artifact files and for corrupted metadata).
* Python `dict`s are association lists with `alookup`/`aset` giving the usual
  update-in-place-or-append semantics of `d[k] = v` and `d.get(k)`.
* `time.time()` is passed in as an explicit `now : Nat` argument; the current
  working directory used by `os.path.abspath` is an explicit `cwd` argument.
* Exceptions become `Except` results; side effects on the filesystem are made
  explicit by returning the new filesystem even on the error path.
-/

deriving instance DecidableEq for Except

namespace EdgeRegistry

/-- `d.get(k)` on a Python dict modelled as an association list. -/
def alookup {β : Type} (k : String) : List (String × β) → Option β
  | [] => none
  | (k', v) :: rest => if k' = k then some v else alookup k rest

/-- `d[k] = v` on a Python dict modelled as an association list: replaces the
binding if the key is present, appends it otherwise. -/
def aset {β : Type} (k : String) (v : β) : List (String × β) → List (String × β)
  | [] => [(k, v)]
  | (k', v') :: rest => if k' = k then (k, v) :: rest else (k', v') :: aset k v rest

/-- `del d[k]` / file removal on an association list. -/
def aremove {β : Type} (k : String) : List (String × β) → List (String × β)
  | [] => []
  | (k', v') :: rest => if k' = k then rest else (k', v') :: aremove k rest

/-- Whether a path is absolute, i.e. starts with the separator character. -/
def isAbs (p : String) : Bool :=
  decide (p.data.head? = some '/')

/-- `os.path.join a b` for the cases exercised by the registry (a nonempty
`a` that does not end in the separator): returns `b` when `b` is absolute,
otherwise inserts a single separator. -/
def ospJoin (a b : String) : String :=
  if isAbs b then b else a ++ "/" ++ b

/-- `os.path.basename p`: the part of `p` after the last separator (the
accumulator restarts at every separator, leaving the final segment). -/
def basename (p : String) : String :=
  ⟨p.data.foldl (fun acc c => if c = '/' then [] else acc ++ [c]) []⟩

/-- `os.path.abspath p`: `p` itself when absolute, otherwise resolved against
the current working directory (normalization of `.`/`..` is not modelled). -/
def abspath (cwd p : String) : String :=
  if isAbs p then p else cwd ++ "/" ++ p

/-- One registered model's metadata: the `model_info` dict built by
`ModelRegistry.register_model`. Metric and metadata values are kept opaque
as strings. -/
structure ModelInfo where
  name : String
  version : String
  path : String
  metrics : List (String × String)
  metadata : List (String × String)
  registered_at : Nat
deriving DecidableEq, Repr

/-- The persisted registry document: name → version → record, the shape
`register_model` writes into `registry.json`. -/
def RegistryDoc : Type := List (String × List (String × ModelInfo))

instance : DecidableEq RegistryDoc := by
  unfold RegistryDoc; infer_instance

instance : Repr RegistryDoc := by
  unfold RegistryDoc; infer_instance

/-- Content of one file. `doc d` parses as a registry document under
`json.load`; `bytes s` is opaque content (an artifact, or corrupted
metadata that raises `json.JSONDecodeError`). -/
inductive FileData where
  | doc (d : RegistryDoc)
  | bytes (s : String)
deriving DecidableEq, Repr

/-- The filesystem: files keyed by path, plus the set of directories known to
exist (only the leaf directories the code creates are tracked; parent entries
made by `os.makedirs` carry no weight in any claim). -/
structure FS where
  files : List (String × FileData)
  dirs : List String
deriving DecidableEq, Repr

/-- Reading a file's content; `none` when no file exists at the path. -/
def FS.read (fs : FS) (p : String) : Option FileData :=
  alookup p fs.files

/-- Writing (creating or truncating) a file. -/
def FS.writeFile (fs : FS) (p : String) (c : FileData) : FS :=
  { fs with files := aset p c fs.files }

/-- `os.path.exists`: true for files and directories alike. -/
def FS.pathExists (fs : FS) (p : String) : Bool :=
  (fs.read p).isSome || fs.dirs.contains p

/-- `os.makedirs(p, exist_ok=True)`. -/
def FS.mkdirs (fs : FS) (p : String) : FS :=
  if fs.dirs.contains p then fs else { fs with dirs := p :: fs.dirs }

/-- `os.remove p` / deleting a file. -/
def FS.removeFile (fs : FS) (p : String) : FS :=
  { fs with files := aremove p fs.files }

/-- `shutil.move src dst` for a same-directory rename: an atomic replace of
`dst` by the file at `src`. -/
def FS.rename (fs : FS) (src dst : String) : FS :=
  match fs.read src with
  | none => fs
  | some c => { fs with files := aset dst c (aremove src fs.files) }

/-- `self.models_dir = os.path.join(base_dir, "models")`. -/
def models_dir (base : String) : String :=
  ospJoin base "models"

/-- `self.registry_path = os.path.join(base_dir, "registry.json")`. -/
def registry_path (base : String) : String :=
  ospJoin base "registry.json"

/-- `ModelRegistry._load_registry`, with the messages it logs as a second
component: reads `registry.json` and parses it; a missing file
(`FileNotFoundError`) or unparsable content (`json.JSONDecodeError`) is
swallowed by the `except` clause, which returns `{}` and logs nothing. -/
def load_registry_logged (fs : FS) (base : String) : RegistryDoc × List String :=
  match fs.read (registry_path base) with
  | none => ([], [])
  | some (.doc d) => (d, [])
  | some (.bytes _) => ([], [])

/-- `ModelRegistry._load_registry`, result only. -/
def load_registry (fs : FS) (base : String) : RegistryDoc :=
  (load_registry_logged fs base).1

/-- The temporary path used by `_save_registry`: `self.registry_path + ".tmp"`. -/
def temp_path (base : String) : String :=
  registry_path base ++ ".tmp"

/-- A single filesystem operation, used to expose the step-by-step effect of
`_save_registry` for the atomicity claim. -/
inductive FsOp where
  | writeFile (p : String) (c : FileData)
  | rename (src dst : String)
deriving DecidableEq, Repr

/-- Applying one filesystem operation. -/
def applyOp (fs : FS) : FsOp → FS
  | .writeFile p c => fs.writeFile p c
  | .rename src dst => fs.rename src dst

/-- Applying a sequence of filesystem operations in order. -/
def applyOps (fs : FS) (ops : List FsOp) : FS :=
  ops.foldl applyOp fs

/-- The operation sequence of `ModelRegistry._save_registry`: dump the whole
document to `registry_path + ".tmp"`, then `shutil.move` it onto
`registry_path`. -/
def save_registry_ops (base : String) (d : RegistryDoc) : List FsOp :=
  [FsOp.writeFile (temp_path base) (.doc d),
   FsOp.rename (temp_path base) (registry_path base)]

/-- `ModelRegistry._save_registry`: the final filesystem after both steps. -/
def save_registry (fs : FS) (base : String) (d : RegistryDoc) : FS :=
  applyOps fs (save_registry_ops base d)

/-- Errors that can escape `register_model`: `shutil.copy2` raises
`FileNotFoundError` when the source does not exist, and `SameFileError` when
source and destination are the same file. -/
inductive RegError where
  | fileNotFound (p : String)
  | sameFileError (p : String)
deriving DecidableEq, Repr

/-- Outcome of `register_model`: the returned `model_info` (or the raised
exception) plus the filesystem after the call, so that side effects on
failure paths stay observable. -/
structure RegOut where
  result : Except RegError ModelInfo
  fs : FS
deriving DecidableEq, Repr

/-- The destination directory `os.path.join(self.models_dir, name, version)`. -/
def model_dir (base name version : String) : String :=
  ospJoin (ospJoin (models_dir base) name) version

/-- The destination path of the copied artifact:
`os.path.join(model_dir, os.path.basename(model_path))`. -/
def dest_path (base name version model_path : String) : String :=
  ospJoin (model_dir base name version) (basename model_path)

/-- The `if name not in registry_data: registry_data[name] = {}` step of
`register_model`. -/
def ensure_name (name : String) (d : RegistryDoc) : RegistryDoc :=
  match alookup name d with
  | none => aset name ([] : List (String × ModelInfo)) d
  | some _ => d

/-- `ModelRegistry.register_model`, step for step:
1. `os.makedirs(model_dir, exist_ok=True)` (before any validation);
2. `shutil.copy2(model_path, dest_path)` — raises `FileNotFoundError` when the
   source is missing, `SameFileError` when source and destination coincide,
   otherwise duplicates the source's content at the destination;
3. `_load_registry()`, insert `model_info` under `[name][version]`
   (creating the `name` level if absent), `_save_registry`. -/
def register_model (cwd : String) (fs : FS) (base : String)
    (name version model_path : String)
    (metrics metadata : List (String × String)) (now : Nat) : RegOut :=
  let mdir := model_dir base name version
  let fs1 := fs.mkdirs mdir
  let dest := dest_path base name version model_path
  match fs1.read model_path with
  | none => { result := .error (.fileNotFound model_path), fs := fs1 }
  | some content =>
    if model_path = dest then
      { result := .error (.sameFileError model_path), fs := fs1 }
    else
      let fs2 := fs1.writeFile dest content
      let registry_data := load_registry fs2 base
      let registry_data1 := ensure_name name registry_data
      let info : ModelInfo :=
        { name := name, version := version, path := abspath cwd dest,
          metrics := metrics, metadata := metadata, registered_at := now }
      let versions := (alookup name registry_data1).getD []
      let registry_data2 := aset name (aset version info versions) registry_data1
      { result := .ok info, fs := save_registry fs2 base registry_data2 }

/-- `ModelRegistry.get_model_path`:
`self._load_registry().get(name, {}).get(version, {}).get("path")`. -/
def get_model_path (fs : FS) (base : String) (name version : String) :
    Option String :=
  (alookup version ((alookup name (load_registry fs base)).getD [])).map
    (fun info => info.path)

/-- The cache key computed by `load_model`: `f"{name}_{version}"`. -/
def cache_key (name version : String) : String :=
  name ++ "_" ++ version

/-- The in-memory cache `self._in_memory_cache`. -/
def Cache : Type := List (String × FileData)

instance : DecidableEq Cache := by
  unfold Cache; infer_instance

instance : Repr Cache := by
  unfold Cache; infer_instance

/-- The single exception `load_model` raises:
`ValueError(f"Model artifact not found: {name} version {version}")`.
`isADirectory` models the `IsADirectoryError` that `open` would raise when the
recorded path exists but is a directory, to keep the function total. -/
inductive LoadError where
  | valueError (msg : String)
  | isADirectory (p : String)
deriving DecidableEq, Repr

/-- Outcome of `load_model`: the content (or exception), the cache after the
call, and how many file contents were read from disk during the call. -/
structure LoadOut where
  result : Except LoadError FileData
  cache : Cache
  diskReads : Nat
deriving DecidableEq, Repr

/-- `ModelRegistry.load_model`:
1. `cache_key = f"{name}_{version}"`; a cache hit returns immediately with no
   disk access;
2. otherwise `get_model_path` (one disk read of `registry.json`); if the path
   is falsy or `os.path.exists` fails, raise
   `ValueError("Model artifact not found: ...")`;
3. read the artifact (second disk read), store it in the cache, return it. -/
def load_model (fs : FS) (cache : Cache) (base : String)
    (name version : String) : LoadOut :=
  let key := cache_key name version
  match alookup key cache with
  | some cached => { result := .ok cached, cache := cache, diskReads := 0 }
  | none =>
    match get_model_path fs base name version with
    | none =>
      { result := .error (.valueError
          ("Model artifact not found: " ++ name ++ " version " ++ version)),
        cache := cache, diskReads := 1 }
    | some p =>
      if p = "" ∨ ¬ fs.pathExists p then
        { result := .error (.valueError
            ("Model artifact not found: " ++ name ++ " version " ++ version)),
          cache := cache, diskReads := 1 }
      else
        match fs.read p with
        | some model_obj =>
          { result := .ok model_obj, cache := aset key model_obj cache,
            diskReads := 2 }
        | none => { result := .error (.isADirectory p), cache := cache,
                    diskReads := 2 }

/-- The state held by one `ModelRegistry` object. -/
structure Instance where
  base_dir : String
  mdirs : String
  rpath : String
  cache : Cache
deriving DecidableEq

/-- Outcome of evaluating `ModelRegistry(base_dir)`: the object the caller
receives, the class-level `_instance` slot afterwards, and the filesystem
afterwards. -/
structure ConOut where
  inst : Instance
  slot : Option Instance
  fs : FS
deriving DecidableEq

/-- Evaluating `ModelRegistry(base_dir=base)` given the current value of the
class attribute `ModelRegistry._instance` (`slot`). `__new__` returns the
existing instance when the slot is filled; `__init__` then returns immediately
because `_initialized` is set, touching neither the object nor the
filesystem. On first construction it stores the paths, creates `models_dir`,
and writes an empty document when `registry.json` does not yet exist. -/
def construct (slot : Option Instance) (fs : FS) (base : String) : ConOut :=
  match slot with
  | some inst => { inst := inst, slot := some inst, fs := fs }
  | none =>
    let inst : Instance :=
      { base_dir := base, mdirs := models_dir base,
        rpath := registry_path base, cache := [] }
    let fs1 := fs.mkdirs (models_dir base)
    let fs2 :=
      if fs1.pathExists (registry_path base) then fs1
      else save_registry fs1 base []
    { inst := inst, slot := some inst, fs := fs2 }

/-! Helper lemmas about the association-list, path and filesystem
primitives. -/

theorem alookup_aset_self {β : Type} (k : String) (v : β)
    (l : List (String × β)) : alookup k (aset k v l) = some v := by
  induction l with
  | nil => simp [aset, alookup]
  | cons hd tl ih =>
    obtain ⟨k', v'⟩ := hd
    by_cases h : k' = k <;> simp [aset, alookup, h, ih]

theorem alookup_aset_ne {β : Type} {k k' : String} (h : k' ≠ k) (v : β)
    (l : List (String × β)) : alookup k (aset k' v l) = alookup k l := by
  have h' : k ≠ k' := Ne.symm h
  induction l with
  | nil => simp [aset, alookup, h]
  | cons hd tl ih =>
    obtain ⟨k'', v''⟩ := hd
    by_cases h2 : k'' = k'
    · subst h2; simp [aset, alookup, h]
    · by_cases h3 : k'' = k <;> simp [aset, alookup, h2, h3, ih, h']

theorem alookup_aremove_ne {β : Type} {k k' : String} (h : k' ≠ k)
    (l : List (String × β)) : alookup k (aremove k' l) = alookup k l := by
  have h' : k ≠ k' := Ne.symm h
  induction l with
  | nil => simp [aremove, alookup]
  | cons hd tl ih =>
    obtain ⟨k'', v''⟩ := hd
    by_cases h2 : k'' = k'
    · subst h2; simp [aremove, alookup, h]
    · by_cases h3 : k'' = k <;> simp [aremove, alookup, h2, h3, ih, h']

theorem FS.read_writeFile_self (fs : FS) (p : String) (c : FileData) :
    (fs.writeFile p c).read p = some c := by
  simp [FS.read, FS.writeFile, alookup_aset_self]

theorem FS.read_writeFile_ne (fs : FS) {p p' : String} (h : p' ≠ p)
    (c : FileData) : (fs.writeFile p' c).read p = fs.read p := by
  simp [FS.read, FS.writeFile, alookup_aset_ne h]

theorem FS.read_mkdirs (fs : FS) (p q : String) :
    (fs.mkdirs p).read q = fs.read q := by
  unfold FS.mkdirs; split <;> rfl

theorem FS.files_mkdirs (fs : FS) (p : String) :
    (fs.mkdirs p).files = fs.files := by
  unfold FS.mkdirs; split <;> rfl

theorem isAbs_append (a b : String) (h : isAbs a = true) :
    isAbs (a ++ b) = true := by
  simp only [isAbs, decide_eq_true_eq] at h ⊢
  rw [String.data_append]
  cases ha : a.data with
  | nil => rw [ha] at h; simp at h
  | cons c t =>
    rw [ha] at h
    simp only [List.head?_cons, Option.some.injEq] at h
    simp [h]

theorem string_append_tmp_ne (p : String) : p ++ ".tmp" ≠ p := by
  intro h
  have hd := congrArg String.data h
  rw [String.data_append] at hd
  have hl := congrArg List.length hd
  rw [List.length_append] at hl
  have h4 : (".tmp".data).length = 4 := rfl
  omega

theorem ne_after_slash {b r s : List Char} {c d : Char} (hcd : c ≠ d)
    (h : b ++ '/' :: c :: r = b ++ '/' :: d :: s) : False := by
  have h2 := List.append_cancel_left h
  simp only [List.cons.injEq] at h2
  exact hcd h2.2.1

theorem registry_path_eq (base : String) :
    registry_path base = base ++ "/" ++ "registry.json" := by
  have h : isAbs "registry.json" = false := by decide
  simp [registry_path, ospJoin, h]

theorem temp_path_eq (base : String) :
    temp_path base = base ++ "/" ++ "registry.json" ++ ".tmp" := by
  rw [temp_path, registry_path_eq]

theorem dest_path_eq (base n v mp : String)
    (hn : isAbs n = false) (hv : isAbs v = false)
    (hb : isAbs (basename mp) = false) :
    dest_path base n v mp =
      base ++ "/" ++ "models" ++ "/" ++ n ++ "/" ++ v ++ "/" ++ basename mp := by
  have hm : isAbs "models" = false := by decide
  simp [dest_path, model_dir, models_dir, ospJoin, hn, hv, hb, hm]

theorem dest_path_ne_registry_path (base n v mp : String)
    (hn : isAbs n = false) (hv : isAbs v = false)
    (hb : isAbs (basename mp) = false) :
    dest_path base n v mp ≠ registry_path base := by
  rw [dest_path_eq base n v mp hn hv hb, registry_path_eq]
  intro h
  have hd := congrArg String.data h
  simp only [String.data_append] at hd
  simp only [List.append_assoc, List.cons_append, List.nil_append] at hd
  exact ne_after_slash (by decide) hd

theorem dest_path_ne_temp_path (base n v mp : String)
    (hn : isAbs n = false) (hv : isAbs v = false)
    (hb : isAbs (basename mp) = false) :
    dest_path base n v mp ≠ temp_path base := by
  rw [dest_path_eq base n v mp hn hv hb, temp_path_eq]
  intro h
  have hd := congrArg String.data h
  simp only [String.data_append] at hd
  simp only [List.append_assoc, List.cons_append, List.nil_append] at hd
  exact ne_after_slash (by decide) hd

theorem read_save_registry (fs : FS) (base : String) (d : RegistryDoc) :
    (save_registry fs base d).read (registry_path base) = some (.doc d) := by
  show FS.read (FS.rename (fs.writeFile (temp_path base) (.doc d))
    (temp_path base) (registry_path base)) (registry_path base) = some (.doc d)
  unfold FS.rename
  rw [FS.read_writeFile_self]
  simp [FS.read, alookup_aset_self]

theorem read_save_registry_ne (fs : FS) (base : String) (d : RegistryDoc)
    {p : String} (h1 : p ≠ registry_path base) (h2 : p ≠ temp_path base) :
    (save_registry fs base d).read p = fs.read p := by
  show FS.read (FS.rename (fs.writeFile (temp_path base) (.doc d))
    (temp_path base) (registry_path base)) p = fs.read p
  unfold FS.rename
  rw [FS.read_writeFile_self]
  simp only [FS.read, FS.writeFile]
  rw [alookup_aset_ne (Ne.symm h1), alookup_aremove_ne (Ne.symm h2),
    alookup_aset_ne (Ne.symm h2)]

theorem dirs_save_registry (fs : FS) (base : String) (d : RegistryDoc) :
    (save_registry fs base d).dirs = fs.dirs := by
  show (FS.rename (fs.writeFile (temp_path base) (.doc d))
    (temp_path base) (registry_path base)).dirs = fs.dirs
  unfold FS.rename
  rw [FS.read_writeFile_self]
  rfl

theorem FS.read_removeFile_ne (fs : FS) {p p' : String} (h : p' ≠ p) :
    (fs.removeFile p').read p = fs.read p := by
  simp [FS.read, FS.removeFile, alookup_aremove_ne h]

theorem ne_empty_of_isAbs {p : String} (h : isAbs p = true) : p ≠ "" := by
  intro he
  subst he
  simp [isAbs] at h

theorem alookup_ensure_name_self (n : String) (d : RegistryDoc) :
    (alookup n (ensure_name n d)).getD [] = (alookup n d).getD [] := by
  unfold ensure_name
  cases h : alookup n d with
  | none => simp [alookup_aset_self]
  | some vs => simp [h]

/-- The value of `register_model` on the success path, as one equation. -/
theorem register_model_ok_eq (cwd : String) (fs : FS) (base : String)
    (n v mp : String) (ms md : List (String × String)) (now : Nat)
    (content : FileData) (hsrc : fs.read mp = some content)
    (hne : mp ≠ dest_path base n v mp) :
    register_model cwd fs base n v mp ms md now =
      { result := Except.ok
          { name := n, version := v,
            path := abspath cwd (dest_path base n v mp),
            metrics := ms, metadata := md, registered_at := now },
        fs := save_registry
          ((fs.mkdirs (model_dir base n v)).writeFile
            (dest_path base n v mp) content) base
          (aset n
            (aset v
              { name := n, version := v,
                path := abspath cwd (dest_path base n v mp),
                metrics := ms, metadata := md, registered_at := now }
              ((alookup n (ensure_name n (load_registry
                ((fs.mkdirs (model_dir base n v)).writeFile
                  (dest_path base n v mp) content) base))).getD []))
            (ensure_name n (load_registry
              ((fs.mkdirs (model_dir base n v)).writeFile
                (dest_path base n v mp) content) base))) } := by
  have hread1 : (fs.mkdirs (model_dir base n v)).read mp = some content := by
    rw [FS.read_mkdirs]; exact hsrc
  unfold register_model
  dsimp only
  rw [hread1]
  simp [hne]

/-- The value of `register_model` when the source file is missing, as one
equation: `shutil.copy2` raises `FileNotFoundError`, but only after
`os.makedirs` has already created the destination directory. -/
theorem register_model_missing_eq (cwd : String) (fs : FS) (base : String)
    (n v mp : String) (ms md : List (String × String)) (now : Nat)
    (hsrc : fs.read mp = none) :
    register_model cwd fs base n v mp ms md now =
      { result := Except.error (RegError.fileNotFound mp),
        fs := fs.mkdirs (model_dir base n v) } := by
  have hread1 : (fs.mkdirs (model_dir base n v)).read mp = none := by
    rw [FS.read_mkdirs]; exact hsrc
  unfold register_model
  dsimp only
  rw [hread1]

/-- After a successful `register_model`, the persisted document maps
`(name, version)` to the freshly built record. -/
theorem record_after_register (cwd : String) (fs : FS) (base : String)
    (n v mp : String) (ms md : List (String × String)) (now : Nat)
    (content : FileData) (hsrc : fs.read mp = some content)
    (hne : mp ≠ dest_path base n v mp) :
    alookup v ((alookup n (load_registry
        (register_model cwd fs base n v mp ms md now).fs base)).getD []) =
      some { name := n, version := v, path := abspath cwd (dest_path base n v mp),
             metrics := ms, metadata := md, registered_at := now } := by
  rw [register_model_ok_eq cwd fs base n v mp ms md now content hsrc hne]
  unfold load_registry load_registry_logged
  rw [read_save_registry]
  rw [alookup_aset_self]
  simp [alookup_aset_self]

/-- After a successful `register_model`, `get_model_path` resolves
`(name, version)` to the stored absolute destination path. -/
theorem path_after_register (cwd : String) (fs : FS) (base : String)
    (n v mp : String) (ms md : List (String × String)) (now : Nat)
    (content : FileData) (hsrc : fs.read mp = some content)
    (hne : mp ≠ dest_path base n v mp) :
    get_model_path (register_model cwd fs base n v mp ms md now).fs base n v =
      some (abspath cwd (dest_path base n v mp)) := by
  unfold get_model_path
  rw [record_after_register cwd fs base n v mp ms md now content hsrc hne]
  rfl

/-- After a successful `register_model`, the copied artifact holds exactly the
source's content. -/
theorem artifact_after_register (cwd : String) (fs : FS) (base : String)
    (n v mp : String) (ms md : List (String × String)) (now : Nat)
    (content : FileData) (hsrc : fs.read mp = some content)
    (hne : mp ≠ dest_path base n v mp)
    (hdr : dest_path base n v mp ≠ registry_path base)
    (hdt : dest_path base n v mp ≠ temp_path base) :
    (register_model cwd fs base n v mp ms md now).fs.read
      (dest_path base n v mp) = some content := by
  rw [register_model_ok_eq cwd fs base n v mp ms md now content hsrc hne]
  show (save_registry _ base _).read (dest_path base n v mp) = some content
  rw [read_save_registry_ne _ _ _ hdr hdt]
  exact FS.read_writeFile_self _ _ _

/-- `isAbs` of the destination path, from the wellformedness of its parts. -/
theorem isAbs_dest_path (base n v mp : String) (habs : isAbs base = true)
    (hn : isAbs n = false) (hv : isAbs v = false)
    (hb : isAbs (basename mp) = false) :
    isAbs (dest_path base n v mp) = true := by
  rw [dest_path_eq base n v mp hn hv hb]
  repeat apply isAbs_append
  exact habs

/-- `get_model_path` only looks at the metadata file, so it is stable under
filesystem changes that leave `registry.json` alone. -/
theorem get_model_path_congr (fs fs2 : FS) (base n v : String)
    (h : fs2.read (registry_path base) = fs.read (registry_path base)) :
    get_model_path fs2 base n v = get_model_path fs base n v := by
  unfold get_model_path load_registry load_registry_logged
  rw [h]

/-- Re-instantiating the registry (a fresh construction over an existing
storage root) does not change what `get_model_path` resolves. -/
theorem get_model_path_construct (fs : FS) (base n v : String)
    (h : (fs.read (registry_path base)).isSome = true) :
    get_model_path (construct none fs base).fs base n v =
      get_model_path fs base n v := by
  unfold construct
  dsimp only
  have hex : (fs.mkdirs (models_dir base)).pathExists (registry_path base) = true := by
    unfold FS.pathExists
    rw [FS.read_mkdirs]
    simp [h]
  rw [if_pos hex]
  apply get_model_path_congr
  exact FS.read_mkdirs fs (models_dir base) (registry_path base)

/-- On a cache miss, `load_model` returns exactly the content recorded at the
resolved path and caches it, at the cost of two disk reads. -/
theorem load_model_reads (fs : FS) (cache : Cache) (base n v p : String)
    (content : FileData)
    (hkey : alookup (cache_key n v) cache = none)
    (hget : get_model_path fs base n v = some p)
    (hp : p ≠ "")
    (hread : fs.read p = some content) :
    load_model fs cache base n v =
      { result := Except.ok content,
        cache := aset (cache_key n v) content cache, diskReads := 2 } := by
  unfold load_model
  dsimp only
  rw [hkey, hget]
  dsimp only
  have hex : fs.pathExists p = true := by unfold FS.pathExists; simp [hread]
  have hcond : ¬ (p = "" ∨ ¬ fs.pathExists p) := by simp [hp, hex]
  rw [if_neg hcond, hread]

/-! The claim theorems. -/

/-- Claim C4: `_save_registry` follows the atomic-write algorithm: the full
serialized document is written to a temporary location in the same directory
(`registry_path + ".tmp"`), then a single atomic rename/replace moves it onto
the canonical path; after any prefix of the operation sequence the canonical
path holds either the old complete document or the new complete document, and
after the full sequence it holds the new one. -/
theorem save_registry_atomic (fs : FS) (base : String) (d : RegistryDoc)
    (k : Nat) (hk : k ≤ (save_registry_ops base d).length) :
    ((applyOps fs ((save_registry_ops base d).take k)).read (registry_path base)
        = fs.read (registry_path base) ∨
      (applyOps fs ((save_registry_ops base d).take k)).read (registry_path base)
        = some (.doc d)) ∧
    (save_registry fs base d).read (registry_path base) = some (.doc d) ∧
    temp_path base = registry_path base ++ ".tmp" := by
  refine ⟨?_, read_save_registry fs base d, rfl⟩
  have hlen : (save_registry_ops base d).length = 2 := rfl
  rw [hlen] at hk
  have htr : temp_path base ≠ registry_path base :=
    string_append_tmp_ne (registry_path base)
  interval_cases k
  · left; rfl
  · left
    show (fs.writeFile (temp_path base) (.doc d)).read (registry_path base) = _
    exact FS.read_writeFile_ne fs htr _
  · right
    exact read_save_registry fs base d

/-- Witness for C4 at a concrete state, between the two write steps. -/
theorem save_registry_atomic_witness :
    ((applyOps { files := [], dirs := [] } ((save_registry_ops "/r" []).take 1)).read
        (registry_path "/r")
        = FS.read { files := [], dirs := [] } (registry_path "/r") ∨
      (applyOps { files := [], dirs := [] } ((save_registry_ops "/r" []).take 1)).read
        (registry_path "/r") = some (.doc [])) ∧
    (save_registry { files := [], dirs := [] } "/r" []).read (registry_path "/r")
      = some (.doc []) ∧
    temp_path "/r" = registry_path "/r" ++ ".tmp" :=
  save_registry_atomic { files := [], dirs := [] } "/r" [] 1 (by decide)

/-- Claim C10: `ModelRegistry` is a process-wide singleton: after the first
construction with `base_dir = d1`, a later construction with any `d2`
(including `d2 ≠ d1`) returns the very same instance, with `base_dir`, the
storage paths and the in-memory cache unchanged and the filesystem untouched;
the later `base_dir` argument is silently ignored. -/
theorem construct_singleton_ignores_base_dir (fs : FS) (d1 d2 : String) :
    construct (construct none fs d1).slot (construct none fs d1).fs d2 =
      { inst := (construct none fs d1).inst,
        slot := (construct none fs d1).slot,
        fs := (construct none fs d1).fs } ∧
    (construct none fs d1).inst.base_dir = d1 ∧
    (construct none fs d1).inst.mdirs = models_dir d1 ∧
    (construct none fs d1).inst.rpath = registry_path d1 ∧
    (construct none fs d1).inst.cache = [] :=
  ⟨rfl, rfl, rfl, rfl, rfl⟩

/-- Claim C2 counterexample: registering with a nonexistent `source_path`
does raise `FileNotFoundError`, but the destination directory
`<root>/models/<name>/<version>` has been created by the time the copy
fails, contradicting "no directory is created under the artifact root". -/
theorem register_missing_source_creates_dir_cex :
    (register_model "/cwd" (construct none { files := [], dirs := [] } "/r").fs
        "/r" "ghost" "v9" "/tmp/nope.bin" [] [] 3).result =
      Except.error (.fileNotFound "/tmp/nope.bin") ∧
    (construct none { files := [], dirs := [] } "/r").fs.dirs.contains
      (model_dir "/r" "ghost" "v9") = false ∧
    (register_model "/cwd" (construct none { files := [], dirs := [] } "/r").fs
        "/r" "ghost" "v9" "/tmp/nope.bin" [] [] 3).fs.dirs.contains
      (model_dir "/r" "ghost" "v9") = true := by decide

/-- Claim C2 (amended): registering with a nonexistent `source_path` fails
with `FileNotFoundError` and touches no file — the metadata document is
untouched and no artifact is written — but, because `os.makedirs` runs before
the copy, the destination directory `<root>/models/<name>/<version>` is
created as a side effect. -/
theorem register_missing_source_no_metadata_but_dir (cwd : String) (fs : FS)
    (base n v mp : String) (ms md : List (String × String)) (now : Nat)
    (hsrc : fs.read mp = none) :
    register_model cwd fs base n v mp ms md now =
      { result := .error (.fileNotFound mp),
        fs := fs.mkdirs (model_dir base n v) } ∧
    (register_model cwd fs base n v mp ms md now).fs.files = fs.files ∧
    (fs.dirs.contains (model_dir base n v) = false →
      (register_model cwd fs base n v mp ms md now).fs.dirs.contains
        (model_dir base n v) = true) := by
  have he := register_model_missing_eq cwd fs base n v mp ms md now hsrc
  refine ⟨he, ?_, ?_⟩
  · rw [he]; exact FS.files_mkdirs fs _
  · intro hd
    rw [he]
    show (fs.mkdirs (model_dir base n v)).dirs.contains (model_dir base n v) = true
    have hc : ¬ (fs.dirs.contains (model_dir base n v) = true) := by simpa using hd
    unfold FS.mkdirs
    rw [if_neg hc]
    simp

/-- Witness for the amended C2 at a concrete state. -/
theorem register_missing_source_no_metadata_but_dir_witness :
    register_model "/cwd" { files := [], dirs := [] } "/r" "ghost" "v9"
        "/tmp/nope.bin" [] [] 3 =
      { result := .error (.fileNotFound "/tmp/nope.bin"),
        fs := FS.mkdirs { files := [], dirs := [] } (model_dir "/r" "ghost" "v9") } ∧
    (register_model "/cwd" { files := [], dirs := [] } "/r" "ghost" "v9"
        "/tmp/nope.bin" [] [] 3).fs.files = ({ files := [], dirs := [] } : FS).files ∧
    (({ files := [], dirs := [] } : FS).dirs.contains (model_dir "/r" "ghost" "v9")
        = false →
      (register_model "/cwd" { files := [], dirs := [] } "/r" "ghost" "v9"
          "/tmp/nope.bin" [] [] 3).fs.dirs.contains (model_dir "/r" "ghost" "v9")
        = true) :=
  register_missing_source_no_metadata_but_dir "/cwd" { files := [], dirs := [] }
    "/r" "ghost" "v9" "/tmp/nope.bin" [] [] 3 (by decide)

/-- Claim C3 counterexample: on corrupted metadata content `_load_registry`
recovers, but it emits no warning at all — the claimed non-fatal warning does
not exist (the `except` clause silently returns `{}`). -/
theorem load_registry_corrupt_no_warning_cex :
    load_registry_logged
        { files := [("/r/registry.json", .bytes "not json")], dirs := [] } "/r" =
      ([], []) := by decide

/-- Claim C3 (amended): `_load_registry` never raises: a missing file yields
the empty document, and unparsable content yields the empty document
silently — no warning is emitted — so a registry over a corrupted metadata
file behaves as an empty registry (`get_model_path` returns `none` for every
pair). -/
theorem load_registry_recovers_silently (fs : FS) (base n v s : String)
    (h : fs.read (registry_path base) = none ∨
      fs.read (registry_path base) = some (.bytes s)) :
    load_registry_logged fs base = ([], []) ∧
    load_registry fs base = [] ∧
    get_model_path fs base n v = none := by
  have hl : load_registry_logged fs base = ([], []) := by
    unfold load_registry_logged
    rcases h with h | h <;> rw [h]
  have hl1 : load_registry fs base = [] := by
    unfold load_registry; rw [hl]
  refine ⟨hl, hl1, ?_⟩
  unfold get_model_path
  rw [hl1]
  rfl

/-- Claim C5: a successful `register_model` returns a record whose stored
path is `<root>/models/<name>/<version>/<basename of source_path>` (with the
given metrics and metadata), `get_model_path` resolves the pair to that path,
and a registry constructed later against the same storage root — a restart —
resolves the pair to the same path. -/
theorem register_roundtrip_resolve (cwd : String) (fs : FS) (base n v mp : String)
    (ms md : List (String × String)) (now : Nat) (content : FileData)
    (habs : isAbs base = true) (hn : isAbs n = false) (hv : isAbs v = false)
    (hb : isAbs (basename mp) = false)
    (hsrc : fs.read mp = some content) (hne : mp ≠ dest_path base n v mp) :
    ∃ info : ModelInfo,
      (register_model cwd fs base n v mp ms md now).result = Except.ok info ∧
      info.path = base ++ "/" ++ "models" ++ "/" ++ n ++ "/" ++ v ++ "/" ++
        basename mp ∧
      info.metrics = ms ∧ info.metadata = md ∧
      get_model_path (register_model cwd fs base n v mp ms md now).fs base n v
        = some info.path ∧
      get_model_path
        (construct none (register_model cwd fs base n v mp ms md now).fs base).fs
        base n v = some info.path := by
  have hdabs := isAbs_dest_path base n v mp habs hn hv hb
  have hpath : abspath cwd (dest_path base n v mp) = dest_path base n v mp := by
    simp [abspath, hdabs]
  refine ⟨{ name := n, version := v, path := abspath cwd (dest_path base n v mp),
            metrics := ms, metadata := md, registered_at := now },
    ?_, ?_, rfl, rfl, ?_, ?_⟩
  · rw [register_model_ok_eq cwd fs base n v mp ms md now content hsrc hne]
  · show abspath cwd (dest_path base n v mp) = _
    rw [hpath, dest_path_eq base n v mp hn hv hb]
  · exact path_after_register cwd fs base n v mp ms md now content hsrc hne
  · rw [get_model_path_construct _ base n v ?_]
    · exact path_after_register cwd fs base n v mp ms md now content hsrc hne
    · rw [register_model_ok_eq cwd fs base n v mp ms md now content hsrc hne]
      show ((save_registry _ base _).read (registry_path base)).isSome = true
      rw [read_save_registry]
      rfl

/-- Witness for C5 at a concrete registration. -/
theorem register_roundtrip_resolve_witness :
    ∃ info : ModelInfo,
      (register_model "/cwd" { files := [("/tmp/a.bin", .bytes "A")], dirs := [] }
          "/r" "net" "v1" "/tmp/a.bin" [("acc", "0.9")] [("author", "x")] 1).result
        = Except.ok info ∧
      info.path = "/r" ++ "/" ++ "models" ++ "/" ++ "net" ++ "/" ++ "v1" ++ "/" ++
        basename "/tmp/a.bin" ∧
      info.metrics = [("acc", "0.9")] ∧ info.metadata = [("author", "x")] ∧
      get_model_path
        (register_model "/cwd" { files := [("/tmp/a.bin", .bytes "A")], dirs := [] }
          "/r" "net" "v1" "/tmp/a.bin" [("acc", "0.9")] [("author", "x")] 1).fs
        "/r" "net" "v1" = some info.path ∧
      get_model_path
        (construct none
          (register_model "/cwd" { files := [("/tmp/a.bin", .bytes "A")], dirs := [] }
            "/r" "net" "v1" "/tmp/a.bin" [("acc", "0.9")] [("author", "x")] 1).fs
          "/r").fs "/r" "net" "v1" = some info.path :=
  register_roundtrip_resolve "/cwd" { files := [("/tmp/a.bin", .bytes "A")], dirs := [] }
    "/r" "net" "v1" "/tmp/a.bin" [("acc", "0.9")] [("author", "x")] 1 (.bytes "A")
    (by decide) (by decide) (by decide) (by decide) (by decide) (by decide)

/-- Claim C1 counterexample: with `("net", "v1")` already registered, a second
`register_model` for the same pair does not fail with any error — it returns
a fresh record — and the persisted document changes, so the first record is
overwritten rather than preserved. -/
theorem register_duplicate_not_rejected_cex :
    (register_model "/cwd"
        (register_model "/cwd"
          (construct none { files := [("/tmp/a.bin", .bytes "A")], dirs := [] } "/r").fs
          "/r" "net" "v1" "/tmp/a.bin" [("acc", "0.9")] [] 1).fs
        "/r" "net" "v1" "/tmp/a.bin" [("acc", "0.95")] [] 2).result =
      Except.ok { name := "net", version := "v1", path := "/r/models/net/v1/a.bin",
                  metrics := [("acc", "0.95")], metadata := [], registered_at := 2 } ∧
    load_registry
        (register_model "/cwd"
          (register_model "/cwd"
            (construct none { files := [("/tmp/a.bin", .bytes "A")], dirs := [] } "/r").fs
            "/r" "net" "v1" "/tmp/a.bin" [("acc", "0.9")] [] 1).fs
          "/r" "net" "v1" "/tmp/a.bin" [("acc", "0.95")] [] 2).fs "/r" ≠
      load_registry
        (register_model "/cwd"
          (construct none { files := [("/tmp/a.bin", .bytes "A")], dirs := [] } "/r").fs
          "/r" "net" "v1" "/tmp/a.bin" [("acc", "0.9")] [] 1).fs "/r" := by decide

/-- Claim C1 (amended): when a record already exists at `(name, version)`,
`register_model` does not fail: it succeeds, replaces the persisted record
with the freshly built one, and re-copies the artifact. The pair still
identifies at most one record afterwards (lookup in the document is a
function), but the duplicate registration overwrites instead of being
rejected. -/
theorem register_duplicate_overwrites (cwd : String) (fs : FS)
    (base n v mp : String) (ms md : List (String × String)) (now : Nat)
    (content : FileData) (old : ModelInfo)
    (hold : alookup v ((alookup n (load_registry fs base)).getD []) = some old)
    (hsrc : fs.read mp = some content) (hne : mp ≠ dest_path base n v mp) :
    (register_model cwd fs base n v mp ms md now).result =
      Except.ok { name := n, version := v,
                  path := abspath cwd (dest_path base n v mp),
                  metrics := ms, metadata := md, registered_at := now } ∧
    alookup v ((alookup n (load_registry
        (register_model cwd fs base n v mp ms md now).fs base)).getD []) =
      some { name := n, version := v,
             path := abspath cwd (dest_path base n v mp),
             metrics := ms, metadata := md, registered_at := now } := by
  refine ⟨?_, record_after_register cwd fs base n v mp ms md now content hsrc hne⟩
  rw [register_model_ok_eq cwd fs base n v mp ms md now content hsrc hne]

/-- Witness for the amended C1: a concrete duplicate registration. -/
theorem register_duplicate_overwrites_witness :
    (register_model "/cwd"
        (register_model "/cwd"
          (construct none { files := [("/tmp/a.bin", .bytes "A")], dirs := [] } "/r").fs
          "/r" "net" "v1" "/tmp/a.bin" [("acc", "0.9")] [] 1).fs
        "/r" "net" "v1" "/tmp/a.bin" [] [] 2).result =
      Except.ok { name := "net", version := "v1",
                  path := abspath "/cwd" (dest_path "/r" "net" "v1" "/tmp/a.bin"),
                  metrics := [], metadata := [], registered_at := 2 } ∧
    alookup "v1" ((alookup "net" (load_registry
        (register_model "/cwd"
          (register_model "/cwd"
            (construct none { files := [("/tmp/a.bin", .bytes "A")], dirs := [] } "/r").fs
            "/r" "net" "v1" "/tmp/a.bin" [("acc", "0.9")] [] 1).fs
          "/r" "net" "v1" "/tmp/a.bin" [] [] 2).fs "/r")).getD []) =
      some { name := "net", version := "v1",
             path := abspath "/cwd" (dest_path "/r" "net" "v1" "/tmp/a.bin"),
             metrics := [], metadata := [], registered_at := 2 } :=
  register_duplicate_overwrites "/cwd"
    (register_model "/cwd"
      (construct none { files := [("/tmp/a.bin", .bytes "A")], dirs := [] } "/r").fs
      "/r" "net" "v1" "/tmp/a.bin" [("acc", "0.9")] [] 1).fs
    "/r" "net" "v1" "/tmp/a.bin" [] [] 2 (.bytes "A")
    { name := "net", version := "v1", path := "/r/models/net/v1/a.bin",
      metrics := [("acc", "0.9")], metadata := [], registered_at := 1 }
    (by decide) (by decide) (by decide)

/-- Claim C7: the stored artifact is an independent duplicate of the source
content: after a successful registration, deleting the source file or
overwriting it with different content does not change what `load_model`
returns — it still returns the content the source had at registration
time. -/
theorem register_copy_independent (cwd : String) (fs : FS) (base n v mp : String)
    (ms md : List (String × String)) (now : Nat) (content c2 : FileData)
    (cache : Cache)
    (habs : isAbs base = true) (hn : isAbs n = false) (hv : isAbs v = false)
    (hb : isAbs (basename mp) = false)
    (hsrc : fs.read mp = some content) (hne : mp ≠ dest_path base n v mp)
    (hmr : mp ≠ registry_path base)
    (hkey : alookup (cache_key n v) cache = none) :
    (load_model ((register_model cwd fs base n v mp ms md now).fs.removeFile mp)
        cache base n v).result = Except.ok content ∧
    (load_model ((register_model cwd fs base n v mp ms md now).fs.writeFile mp c2)
        cache base n v).result = Except.ok content := by
  have hdr := dest_path_ne_registry_path base n v mp hn hv hb
  have hdt := dest_path_ne_temp_path base n v mp hn hv hb
  have hdabs := isAbs_dest_path base n v mp habs hn hv hb
  have hpne : dest_path base n v mp ≠ "" := ne_empty_of_isAbs hdabs
  have hpath : abspath cwd (dest_path base n v mp) = dest_path base n v mp := by
    simp [abspath, hdabs]
  have hart := artifact_after_register cwd fs base n v mp ms md now content
    hsrc hne hdr hdt
  have hget := path_after_register cwd fs base n v mp ms md now content hsrc hne
  rw [hpath] at hget
  constructor
  · have hget1 : get_model_path
        ((register_model cwd fs base n v mp ms md now).fs.removeFile mp)
        base n v = some (dest_path base n v mp) := by
      rw [get_model_path_congr _ _ base n v
        (FS.read_removeFile_ne _ hmr)]
      exact hget
    have hread1 : ((register_model cwd fs base n v mp ms md now).fs.removeFile
        mp).read (dest_path base n v mp) = some content := by
      rw [FS.read_removeFile_ne _ hne]
      exact hart
    rw [load_model_reads _ cache base n v _ content hkey hget1 hpne hread1]
  · have hget2 : get_model_path
        ((register_model cwd fs base n v mp ms md now).fs.writeFile mp c2)
        base n v = some (dest_path base n v mp) := by
      rw [get_model_path_congr _ _ base n v
        (FS.read_writeFile_ne _ hmr c2)]
      exact hget
    have hread2 : ((register_model cwd fs base n v mp ms md now).fs.writeFile
        mp c2).read (dest_path base n v mp) = some content := by
      rw [FS.read_writeFile_ne _ hne c2]
      exact hart
    rw [load_model_reads _ cache base n v _ content hkey hget2 hpne hread2]

/-- Witness for C7: register from `/tmp/a.bin`, then delete or overwrite the
source; `load_model` still returns the registered content. -/
theorem register_copy_independent_witness :
    (load_model
        ((register_model "/cwd" { files := [("/tmp/a.bin", .bytes "A")], dirs := [] }
          "/r" "net" "v1" "/tmp/a.bin" [] [] 1).fs.removeFile "/tmp/a.bin")
        [] "/r" "net" "v1").result = Except.ok (.bytes "A") ∧
    (load_model
        ((register_model "/cwd" { files := [("/tmp/a.bin", .bytes "A")], dirs := [] }
          "/r" "net" "v1" "/tmp/a.bin" [] [] 1).fs.writeFile "/tmp/a.bin"
          (.bytes "MUTATED"))
        [] "/r" "net" "v1").result = Except.ok (.bytes "A") :=
  register_copy_independent "/cwd" { files := [("/tmp/a.bin", .bytes "A")], dirs := [] }
    "/r" "net" "v1" "/tmp/a.bin" [] [] 1 (.bytes "A") (.bytes "MUTATED") []
    (by decide) (by decide) (by decide) (by decide) (by decide) (by decide)
    (by decide) (by decide)

/-- Witness for the amended C3 over a concretely corrupted metadata file. -/
theorem load_registry_recovers_silently_witness :
    load_registry_logged
        { files := [("/r/registry.json", .bytes "garbage")], dirs := [] } "/r" =
      ([], []) ∧
    load_registry
        { files := [("/r/registry.json", .bytes "garbage")], dirs := [] } "/r" =
      [] ∧
    get_model_path
        { files := [("/r/registry.json", .bytes "garbage")], dirs := [] } "/r"
        "net" "v1" = none :=
  load_registry_recovers_silently
    { files := [("/r/registry.json", .bytes "garbage")], dirs := [] }
    "/r" "net" "v1" "garbage" (Or.inr (by decide))

/-- Claim C6: once a `load_model` call has returned content successfully, a
second call with the same `(name, version)` against the same state returns the
very same content value, leaves the cache unchanged, and performs zero disk
reads. -/
theorem load_model_cache_identity (fs : FS) (cache cache' : Cache)
    (base n v : String) (c : FileData) (k : Nat)
    (h : load_model fs cache base n v =
      { result := Except.ok c, cache := cache', diskReads := k }) :
    load_model fs cache' base n v =
      { result := Except.ok c, cache := cache', diskReads := 0 } := by
  unfold load_model at h ⊢
  dsimp only at h ⊢
  cases hc : alookup (cache_key n v) cache with
  | some cached =>
    rw [hc] at h
    dsimp only at h
    simp only [LoadOut.mk.injEq, Except.ok.injEq] at h
    obtain ⟨h1, h2, h3⟩ := h
    subst h2
    rw [hc]
    dsimp only
    rw [h1]
  | none =>
    rw [hc] at h
    dsimp only at h
    cases hg : get_model_path fs base n v with
    | none => rw [hg] at h; dsimp only at h; simp at h
    | some p =>
      rw [hg] at h
      dsimp only at h
      by_cases hp : p = "" ∨ ¬ fs.pathExists p
      · rw [if_pos hp] at h; simp at h
      · rw [if_neg hp] at h
        cases hr : fs.read p with
        | none => rw [hr] at h; dsimp only at h; simp at h
        | some obj =>
          rw [hr] at h
          dsimp only at h
          simp only [LoadOut.mk.injEq, Except.ok.injEq] at h
          obtain ⟨h1, h2, h3⟩ := h
          subst h2
          rw [alookup_aset_self]
          dsimp only
          rw [h1]

/-- Witness for C6: a concrete cold load followed by a warm load. -/
theorem load_model_cache_identity_witness :
    load_model
        (register_model "/cwd" { files := [("/tmp/a.bin", .bytes "A")], dirs := [] }
          "/r" "net" "v1" "/tmp/a.bin" [] [] 1).fs
        [("net_v1", .bytes "A")] "/r" "net" "v1" =
      { result := Except.ok (.bytes "A"), cache := [("net_v1", .bytes "A")],
        diskReads := 0 } :=
  load_model_cache_identity
    (register_model "/cwd" { files := [("/tmp/a.bin", .bytes "A")], dirs := [] }
      "/r" "net" "v1" "/tmp/a.bin" [] [] 1).fs
    [] [("net_v1", .bytes "A")] "/r" "net" "v1" (.bytes "A") 2 (by decide)

/-- Claim C8 counterexample: the "pair absent from metadata" failure and the
"recorded path missing on disk" failure raise the very same
`ValueError("Model artifact not found: net version v1")` — there are no two
distinguishable error kinds to branch on. -/
theorem load_model_errors_indistinct_cex :
    (load_model (construct none { files := [], dirs := [] } "/r").fs
        [] "/r" "net" "v1").result =
      Except.error (.valueError "Model artifact not found: net version v1") ∧
    (load_model
        ((register_model "/cwd" { files := [("/tmp/a.bin", .bytes "A")], dirs := [] }
          "/r" "net" "v1" "/tmp/a.bin" [] [] 1).fs.removeFile
          "/r/models/net/v1/a.bin")
        [] "/r" "net" "v1").result =
      Except.error (.valueError "Model artifact not found: net version v1") ∧
    get_model_path (construct none { files := [], dirs := [] } "/r").fs
      "/r" "net" "v1" = none ∧
    get_model_path
      ((register_model "/cwd" { files := [("/tmp/a.bin", .bytes "A")], dirs := [] }
        "/r" "net" "v1" "/tmp/a.bin" [] [] 1).fs.removeFile
        "/r/models/net/v1/a.bin")
      "/r" "net" "v1" = some "/r/models/net/v1/a.bin" := by decide

/-- Claim C8 (amended): an uncached `load_model` fails with the single
exception `ValueError("Model artifact not found: {name} version {version}")`
in both failure cases — pair absent from the persisted metadata, and metadata
recording a path that does not exist on disk — so the two cases are not
distinguishable by error kind. -/
theorem load_model_error_single_kind (fs : FS) (cache : Cache)
    (base n v : String)
    (hkey : alookup (cache_key n v) cache = none) :
    (get_model_path fs base n v = none →
      load_model fs cache base n v =
        { result := Except.error (.valueError
            ("Model artifact not found: " ++ n ++ " version " ++ v)),
          cache := cache, diskReads := 1 }) ∧
    (∀ p, get_model_path fs base n v = some p → (p = "" ∨ ¬ fs.pathExists p) →
      load_model fs cache base n v =
        { result := Except.error (.valueError
            ("Model artifact not found: " ++ n ++ " version " ++ v)),
          cache := cache, diskReads := 1 }) := by
  constructor
  · intro hg
    unfold load_model
    dsimp only
    rw [hkey, hg]
  · intro p hg hp
    unfold load_model
    dsimp only
    rw [hkey, hg]
    dsimp only
    rw [if_pos hp]

/-- Witness for the amended C8 on an empty registry. -/
theorem load_model_error_single_kind_witness :
    load_model (construct none { files := [], dirs := [] } "/r").fs []
        "/r" "net" "v1" =
      { result := Except.error (.valueError
          ("Model artifact not found: " ++ "net" ++ " version " ++ "v1")),
        cache := [], diskReads := 1 } :=
  (load_model_error_single_kind (construct none { files := [], dirs := [] } "/r").fs
    [] "/r" "net" "v1" (by decide)).1 (by decide)

/-- Splitting a character list at a separator that occurs in neither prefix
is injective. -/
theorem sep_split_inj {a a' b b' : List Char}
    (ha : '_' ∉ a) (ha' : '_' ∉ a')
    (h : a ++ '_' :: b = a' ++ '_' :: b') : a = a' ∧ b = b' := by
  induction a generalizing a' with
  | nil =>
    cases a' with
    | nil => simpa using h
    | cons c t =>
      exfalso
      simp only [List.nil_append, List.cons_append, List.cons.injEq] at h
      exact ha' (by rw [← h.1]; exact List.mem_cons_self _ _)
  | cons c t ih =>
    cases a' with
    | nil =>
      exfalso
      simp only [List.nil_append, List.cons_append, List.cons.injEq] at h
      exact ha (by rw [h.1]; exact List.mem_cons_self _ _)
    | cons c' t' =>
      simp only [List.cons_append, List.cons.injEq] at h
      have hta : '_' ∉ t := fun hm => ha (List.mem_cons_of_mem _ hm)
      have hta' : '_' ∉ t' := fun hm => ha' (List.mem_cons_of_mem _ hm)
      obtain ⟨h1, h2⟩ := ih hta hta' h.2
      exact ⟨by rw [h.1, h1], h2⟩

/-- Claim C9 counterexample: the cache key is `name + "_" + version`, not
`name + "/" + version`, and two distinct pairs can share a cache entry:
`("a_b", "c")` and `("a", "b_c")` map to the same key, so a load for
`("a", "b_c")` returns content cached for the other pair. -/
theorem cache_key_underscore_cex :
    cache_key "net" "v1" ≠ "net" ++ "/" ++ "v1" ∧
    ("a_b", "c") ≠ (("a", "b_c") : String × String) ∧
    cache_key "a_b" "c" = cache_key "a" "b_c" ∧
    (load_model { files := [], dirs := [] } [("a_b_c", FileData.bytes "X")]
      "/r" "a" "b_c").result = Except.ok (.bytes "X") := by decide

/-- Claim C9 (amended): `load_model` addresses the cache by the composite key
`name + "_" + version`. Distinct pairs can collide when the strings contain
underscores, but for underscore-free names the key is injective, so two
distinct pairs never share a cache entry and populating one pair's entry
leaves every other pair's lookup unchanged. -/
theorem cache_key_underscore_free_inj (n v n' v' : String) (cache : Cache)
    (c : FileData)
    (h1 : '_' ∉ n.data) (h2 : '_' ∉ n'.data)
    (hne : ¬ (n = n' ∧ v = v')) :
    cache_key n v = n ++ "_" ++ v ∧
    cache_key n v ≠ cache_key n' v' ∧
    alookup (cache_key n' v') (aset (cache_key n v) c cache) =
      alookup (cache_key n' v') cache := by
  have hkne : cache_key n v ≠ cache_key n' v' := by
    intro h
    have hd := congrArg String.data h
    simp only [cache_key, String.data_append] at hd
    simp only [List.append_assoc, List.cons_append, List.nil_append] at hd
    obtain ⟨hdn, hdv⟩ := sep_split_inj h1 h2 hd
    exact hne ⟨String.ext hdn, String.ext hdv⟩
  exact ⟨rfl, hkne, alookup_aset_ne hkne c cache⟩

/-- Witness for the amended C9 on two concrete underscore-free pairs. -/
theorem cache_key_underscore_free_inj_witness :
    cache_key "net" "v1" = "net" ++ "_" ++ "v1" ∧
    cache_key "net" "v1" ≠ cache_key "net" "v2" ∧
    alookup (cache_key "net" "v2")
        (aset (cache_key "net" "v1") (FileData.bytes "X") []) =
      alookup (cache_key "net" "v2") ([] : Cache) :=
  cache_key_underscore_free_inj "net" "v1" "net" "v2" [] (.bytes "X")
    (by decide) (by decide) (by decide)

end EdgeRegistry
